import Mathlib

/-!
Verification of the `sto` security-token management tool against its
natural-language specification.

The development shallowly embeds the relevant parts of the repository:

* `sto/ethereum/utils.py` — address helpers (`mk_contract_address`,
  `validate_ethereum_address`), configuration checks (`check_good_node_url`,
  `check_good_private_key`), the `getLogs` wrapper and `deploy_contract`;
  together with executable models of the external primitives they call
  (`eth_utils.keccak`, `rlp.encode`, `eth_utils.to_checksum_address`,
  `eth_utils.is_hex_address`, `eth_utils.is_checksum_address`).
* `sto/cli/main.py` — network dispatch (`is_ethereum_network`), the
  `diagnose` command's network check, the automatic nonce-restart decision
  of the `cli` entry point, and the `cap-table` command's option choices.
* The transaction queue service, chain scanner and cap-table builder are
  not part of the source tree; they are modelled from the specification
  (sections 4.1–4.4), as marked on each definition.

Machine integers do not occur: Python integers are unbounded, so `Nat`
models them directly; 64-bit lanes inside Keccak are `Nat` reduced
modulo `2 ^ 64`.
-/

namespace STO

/-! ## Keccak-256 (model of the external `eth_utils.keccak` primitive)

Keccak-f[1600] with rate 1088, capacity 512 and the original Keccak
multi-rate padding (pad byte `0x01`), as used by Ethereum.  The state is a
list of 25 lanes, lane (x, y) at index `x + 5 * y`, each lane a `Nat`
kept below `2 ^ 64`.  Bytes are `Nat` values below 256. -/

def W64 : Nat := 2 ^ 64

def rotl64 (x n : Nat) : Nat :=
  ((x <<< n) % W64) ||| (x >>> (64 - n))

def lget (l : List Nat) (i : Nat) : Nat := l.getD i 0

/-- One step of the degree-8 LFSR (polynomial x^8+x^6+x^5+x^4+1, feedback
mask 0x171 = 369) that generates the Keccak round-constant bits. -/
def lfsrStep (s : Nat) : Nat :=
  let d := s <<< 1
  if d &&& 256 = 0 then d else (d ^^^ 369) &&& 255

def lfsrState : Nat → Nat
  | 0 => 1
  | t + 1 => lfsrStep (lfsrState t)

/-- The 24 round constants: bit `2 ^ j - 1` of constant `i` is the LFSR
output bit at time `7 * i + j`. -/
def keccakRC : List Nat :=
  (List.range 24).map fun i =>
    (List.range 7).foldl (fun acc j => acc ||| ((lfsrState (7 * i + j) &&& 1) <<< (2 ^ j - 1))) 0

/-- Fill the rho rotation table along the pi trajectory: starting from
lane (1, 0), step `t` writes the triangular number `(t+1)(t+2)/2 mod 64`
and moves from (x, y) to (y, (2x+3y) mod 5).  Lane (0, 0) keeps 0. -/
def rhoFillStep (acc : List Nat × Nat × Nat) (t : Nat) : List Nat × Nat × Nat :=
  let l := acc.1
  let x := acc.2.1
  let y := acc.2.2
  (l.set (x + 5 * y) ((t + 1) * (t + 2) / 2 % 64), y, (2 * x + 3 * y) % 5)

def rhoOffsets : List Nat :=
  ((List.range 24).foldl rhoFillStep (List.replicate 25 0, 1, 0)).1

def keccakTheta (s : List Nat) : List Nat :=
  let c := (List.range 5).map fun x =>
    ((((lget s x).xor (lget s (x + 5))).xor (lget s (x + 10))).xor (lget s (x + 15))).xor
      (lget s (x + 20))
  let d := (List.range 5).map fun x => (lget c ((x + 4) % 5)).xor (rotl64 (lget c ((x + 1) % 5)) 1)
  (List.range 25).map fun i => (lget s i).xor (lget d (i % 5))

def keccakRhoPi (s : List Nat) : List Nat :=
  (List.range 25).map fun j =>
    let xp := j % 5
    let yp := j / 5
    let src := ((xp + 3 * yp) % 5) + 5 * xp
    rotl64 (lget s src) (lget rhoOffsets src)

def keccakChi (s : List Nat) : List Nat :=
  (List.range 25).map fun j =>
    let x := j % 5
    let y := j / 5
    (lget s j).xor (((lget s ((x + 1) % 5 + 5 * y)).xor (W64 - 1)).land
      (lget s ((x + 2) % 5 + 5 * y)))

def keccakRound (s : List Nat) (rc : Nat) : List Nat :=
  let s := keccakChi (keccakRhoPi (keccakTheta s))
  ((lget s 0).xor rc) :: s.tail

def keccakF (s : List Nat) : List Nat :=
  keccakRC.foldl keccakRound s

def bytesToLane (bs : List Nat) : Nat :=
  bs.foldr (fun b acc => b + 256 * acc) 0

def laneToBytes (n : Nat) (x : Nat) : List Nat :=
  (List.range n).map fun i => (x >>> (8 * i)) % 256

/-- Split a list into chunks of size `k`; the fuel argument makes the
recursion structural so that proofs can evaluate it inside the kernel. -/
def chunksFuel (k : Nat) : Nat → List Nat → List (List Nat)
  | 0, _ => []
  | _, [] => []
  | fuel + 1, l => l.take k :: chunksFuel k fuel (l.drop k)

def chunks (k : Nat) (l : List Nat) : List (List Nat) :=
  chunksFuel k l.length l

def keccakPad (rate : Nat) (msg : List Nat) : List Nat :=
  let padlen := rate - msg.length % rate
  if padlen = 1 then msg ++ [0x81]
  else msg ++ [0x01] ++ List.replicate (padlen - 2) 0 ++ [0x80]

def absorbBlock (s : List Nat) (block : List Nat) : List Nat :=
  let lanes := (chunks 8 block).map bytesToLane
  keccakF ((List.range 25).map fun i =>
    if i < 17 then (lget s i).xor (lget lanes i) else lget s i)

/-- Keccak-256 of a byte sequence, as computed by `eth_utils.keccak`. -/
def keccak256 (msg : List Nat) : List Nat :=
  let padded := keccakPad 136 msg
  let final := (chunks 136 padded).foldl absorbBlock (List.replicate 25 0)
  (final.take 4).flatMap (laneToBytes 8)

/-! ## RLP encoding (model of the external `rlp.encode` primitive)

Only what `mk_contract_address` needs: encoding a byte string, a
non-negative integer (minimal big-endian bytes) and a list payload. -/

/-- Minimal big-endian byte representation of `n` (`0` encodes to the
empty string, as in the Python `rlp` sedes for integers).  Fuel-based
structural recursion; `n` itself is always enough fuel. -/
def natToBytesBEFuel : Nat → Nat → List Nat
  | 0, _ => []
  | fuel + 1, n => if n = 0 then [] else natToBytesBEFuel fuel (n / 256) ++ [n % 256]

def natToBytesBE (n : Nat) : List Nat := natToBytesBEFuel n n

/-- RLP length prefix: `shortBase` is `0x80` for strings, `0xc0` for lists. -/
def rlpEncodeLength (payloadLen : Nat) (shortBase : Nat) : List Nat :=
  if payloadLen < 56 then [shortBase + payloadLen]
  else (shortBase + 55 + (natToBytesBE payloadLen).length) :: natToBytesBE payloadLen

def rlpEncodeBytes (bs : List Nat) : List Nat :=
  if bs.length = 1 ∧ bs.headD 0 < 0x80 then bs
  else rlpEncodeLength bs.length 0x80 ++ bs

def rlpEncodeNat (n : Nat) : List Nat := rlpEncodeBytes (natToBytesBE n)

def rlpEncodeListPayload (payload : List Nat) : List Nat :=
  rlpEncodeLength payload.length 0xc0 ++ payload

/-! ## Hex strings and EIP-55 checksummed addresses -/

def hexDigitsLower : List Char := "0123456789abcdef".toList

/-- Value of a hexadecimal digit, either case; `none` otherwise. -/
def hexDigitVal (c : Char) : Option Nat :=
  hexDigitsLower.findIdx? fun d => d == c.toLower

def isHexDigitChar (c : Char) : Bool := (hexDigitVal c).isSome

/-- Lowercase hex character of a value below 16. -/
def hexCharOfNat (n : Nat) : Char := hexDigitsLower.getD n '0'

def bytesToHexChars (bs : List Nat) : List Char :=
  bs.flatMap fun b => [hexCharOfNat (b / 16), hexCharOfNat (b % 16)]

/-- Remove a leading `0x` (as `eth_utils.remove_0x_prefix`). -/
def strip0x (s : List Char) : List Char :=
  match s with
  | '0' :: 'x' :: rest => rest
  | _ => s

/-- Hex-decode character pairs into bytes, defaulting bad digits to 0
(total variant of `eth_utils.to_bytes(hexstr=...)`; callers in this
development only pass valid hex). -/
def hexToBytesD : List Char → List Nat
  | [] => []
  | [c] => [(hexDigitVal c).getD 0]
  | c1 :: c2 :: rest =>
    (16 * (hexDigitVal c1).getD 0 + (hexDigitVal c2).getD 0) :: hexToBytesD rest

/-- Model of `eth_utils.to_checksum_address` applied to 20 raw bytes:
lowercase hex expansion, then uppercase every hex digit whose
corresponding nibble of `keccak256` of the ASCII lowercase hex string is
at least 8 (EIP-55). -/
def to_checksum_address (address_bytes : List Nat) : String :=
  let hexAddr := bytesToHexChars address_bytes
  let hash := keccak256 (hexAddr.map Char.toNat)
  let nibbles := hash.flatMap fun b => [b / 16, b % 16]
  let cs := (List.range hexAddr.length).map fun i =>
    let c := hexAddr.getD i ' '
    if 8 ≤ lget nibbles i then c.toUpper else c
  String.mk ('0' :: 'x' :: cs)

/-- `to_checksum_address` applied to a hex string argument. -/
def checksum_of_hex (s : String) : String :=
  to_checksum_address (hexToBytesD (strip0x s.toList))

/-- Model of `eth_utils.is_hex_address`: a `0x`-prefixed string of
exactly 40 hexadecimal digits (a 42-character hex-encoded address). -/
def is_hex_address (s : List Char) : Bool :=
  (s.take 2 == ['0', 'x']) && ((s.drop 2).length == 40) && (s.drop 2).all isHexDigitChar

/-- Model of `eth_utils.is_checksum_address`: a hex address whose EIP-55
checksummed form is the string itself. -/
def is_checksum_address (s : List Char) : Bool :=
  is_hex_address s && (checksum_of_hex (String.mk s) == String.mk s)

/-! ## `sto/ethereum/utils.py` — address construction and validation -/

/-- `mk_contract_address` (utils.py lines 59–68): keccak256 of the RLP
encoding of `[sender_bytes, nonce]`, last 20 bytes, checksummed. -/
def mk_contract_address (sender : String) (nonce : Nat) : String :=
  let sender_bytes := hexToBytesD (strip0x sender.toList)
  let raw := rlpEncodeListPayload (rlpEncodeBytes sender_bytes ++ rlpEncodeNat nonce)
  let h := keccak256 raw
  let address_bytes := h.drop 12
  to_checksum_address address_bytes

/-- `validate_ethereum_address` (utils.py lines 75–93), with `raise
ValueError` modelled as `Except.error` carrying the message. -/
def validate_ethereum_address (address : String) : Except String Unit :=
  let cs := address.toList
  if address.length < 42 then
    Except.error ("Not an Ethereum address: " ++ address)
  else if !(is_hex_address cs) then
    Except.error ("Not an Ethereum address: " ++ address)
  else if cs.any Char.isUpper && !(is_checksum_address cs) then
    Except.error ("Not a checksummed Ethereum address: " ++ address)
  else
    Except.ok ()

/-! ## `sto/cli/main.py` — network dispatch and entry-point policies -/

/-- `is_ethereum_network` (main.py lines 41–42): membership in the fixed
tuple `("ethereum", "kovan", "ropsten")`. -/
def is_ethereum_network (network : String) : Bool :=
  ["ethereum", "kovan", "ropsten"].contains network

/-- Error raised by the `diagnose` command on an unrecognised network
(main.py line 314). -/
inductive CliError where
  | unknownConfiguredNetwork : CliError
deriving DecidableEq

/-- Network dispatch of the `diagnose` command (main.py lines 297–314):
run Ethereum diagnostics when `is_ethereum_network` holds, otherwise
raise `UnknownConfiguredNetwork`.  The diagnostics themselves are an
external call; the model records only the dispatch outcome. -/
def diagnose (network : String) : Except CliError Unit :=
  if is_ethereum_network network then Except.ok ()
  else Except.error CliError.unknownConfiguredNetwork

/-- Nonce-resync decision of the `cli` entry point (main.py lines
105–116): `restart_nonce` runs exactly when the database was freshly
created, `auto_restart_nonce` is set and an `ethereum_private_key` is
configured (Python truthiness: the unset key is `None` or the empty
string, modelled as `""`). -/
def cli_auto_restart_nonce (new_db : Bool) (auto_restart_nonce : Bool)
    (ethereum_private_key : String) : Bool :=
  new_db && (auto_restart_nonce && !(ethereum_private_key == ""))

/-! ## `sto/ethereum/utils.py` — configuration errors and `deploy_contract` -/

inductive ConfigError where
  | noNodeConfigured (msg : String) : ConfigError
  | needPrivateKey (msg : String) : ConfigError
  | assertionError : ConfigError
deriving DecidableEq

def noNodeMsg : String :=
  "You need to give --ethereum-node-url command line option or set it up in a config file"

def needKeyMsg : String :=
  "You need to give --ethereum-private-key command line option or set it up in a config file"

/-- `check_good_node_url` (utils.py lines 28–30): raise `NoNodeConfigured`
when the url is falsy (the empty string). -/
def check_good_node_url (node_url : String) : Except ConfigError Unit :=
  if node_url == "" then Except.error (ConfigError.noNodeConfigured noNodeMsg)
  else Except.ok ()

/-- `check_good_private_key` (utils.py lines 33–35). -/
def check_good_private_key (private_key_hex : String) : Except ConfigError Unit :=
  if private_key_hex == "" then Except.error (ConfigError.needPrivateKey needKeyMsg)
  else Except.ok ()

/-- Chain interactions performed by `deploy_contract`; loading the ABI
file is local I/O, not a chain interaction. -/
inductive ChainAction where
  | createWeb3 (url : String) : ChainAction
  | deployTx (contract_name : String) : ChainAction
deriving DecidableEq

/-- `deploy_contract` (utils.py lines 169–207), modelled as the list of
chain interactions it performs together with its outcome: it asserts
`is_ethereum_network`, checks the private key, and only then connects to
the node and hands the deployment to the stored-transaction service. -/
def deploy_contract (network : String) (ethereum_private_key : String)
    (ethereum_node_url : String) (contract_name : String) :
    List ChainAction × Except ConfigError Unit :=
  if !(is_ethereum_network network) then ([], Except.error ConfigError.assertionError)
  else
    match check_good_private_key ethereum_private_key with
    | Except.error e => ([], Except.error e)
    | Except.ok () =>
      ([ChainAction.createWeb3 ethereum_node_url, ChainAction.deployTx contract_name],
        Except.ok ())

/-! ## `sto/ethereum/utils.py` — `getLogs` (lines 121–166)

The web3 helpers (`construct_event_filter_params`, `eth.getLogs`,
`get_event_data`) and the contract state (`_get_event_abi`, `address`)
are external; they are carried as fields of an environment record so the
theorem can quantify over every possible behaviour of theirs. -/

structure LogsEnv where
  eventAbi : String
  contractAddress : String
  constructEventFilterParams :
    String → Option String → List (String × String) → Nat → String → Option String →
      List String → List (String × String) × List (String × String)
  ethGetLogs : List (String × String) → List String
  getEventData : String → String → String

/-- `getLogs`: after the mandatory `fromBlock` check, line 145 overwrites
the `argument_filters` parameter with a fresh empty dict, builds the
event filter parameters, queries the node and decodes each raw entry.
The model returns the constructed filter parameters together with the
decoded events. -/
def getLogs (env : LogsEnv) (argument_filters : Option (List (String × String)))
    (fromBlock : Option Nat) (toBlock : String) (address : Option String)
    (topics : List String) :
    Except String (List (String × String) × List String) :=
  match fromBlock with
  | none => Except.error "Missing mandatory keyword argument to getLogs: fromBlock"
  | some fb =>
    let abi := env.eventAbi
    let argument_filters := ([] : List (String × String))
    let filters := argument_filters
    let ps := env.constructEventFilterParams abi (some env.contractAddress) filters fb
      toBlock address topics
    let event_filter_params := ps.2
    let logs := env.ethGetLogs event_filter_params
    Except.ok (event_filter_params, logs.map (env.getEventData abi))

/-! ## Transaction queue service (claims C1 and C2)

Modelled from the spec: sections 4.1 and 4.2.  The service implementation
(`sto/ethereum/txservice.py`) is not part of the source tree; only its
callers are.  `prepare` persists a record with the next nonce and signs it
in the same step; the chain-verified floor of the nonce counter is applied
at initialisation (`restart_nonce` / `resync`), after which the counter
advances by one per created record.  Lifecycle updates (`broadcast`,
`confirm`, `fail`) never touch a record's nonce. -/

inductive TxState where
  | created : TxState
  | signed : TxState
  | broadcast : TxState
  | confirmed : TxState
  | failed : TxState
deriving DecidableEq

structure PreparedTx where
  txid : Nat
  externalId : Option String
  nonce : Nat
  state : TxState
deriving DecidableEq

/-- The transaction store for one managing account: records in creation
order, plus the account's nonce counter. -/
structure TXServiceState where
  txs : List PreparedTx
  nextNonce : Nat
deriving DecidableEq

def findByExternalId (txs : List PreparedTx) (eid : String) : Option PreparedTx :=
  txs.find? fun t => t.externalId == some eid

/-- Modelled from the spec: §4.1 `CREATED`/`SIGNED` — persist a new record
with the next nonce and advance the counter. -/
def prepareNew (s : TXServiceState) (eid : Option String) : PreparedTx × TXServiceState :=
  let t : PreparedTx := ⟨s.txs.length, eid, s.nextNonce, TxState.signed⟩
  (t, ⟨s.txs ++ [t], s.nextNonce + 1⟩)

/-- Modelled from the spec: §4.1 `prepare(call_params, correlation_id?)`
— idempotent on the external correlation id: when an active record with
the same id exists, return it and create nothing. -/
def prepare (s : TXServiceState) (eid : Option String) : PreparedTx × TXServiceState :=
  match eid with
  | some e =>
    match findByExternalId s.txs e with
    | some t => (t, s)
    | none => prepareNew s (some e)
  | none => prepareNew s none

/-- Modelled from the spec: §4.1 — `broadcast_pending` / `refresh_status`
update only the lifecycle state of a record, never its nonce. -/
def setTxState (s : TXServiceState) (txid : Nat) (st : TxState) : TXServiceState :=
  ⟨s.txs.map fun t => if t.txid == txid then ⟨t.txid, t.externalId, t.nonce, st⟩ else t,
    s.nextNonce⟩

/-- One operation of the queue service, as observable from the store. -/
inductive TxOp where
  | prepareOp (eid : Option String) : TxOp
  | setStateOp (txid : Nat) (st : TxState) : TxOp

def applyOp (s : TXServiceState) : TxOp → TXServiceState
  | TxOp.prepareOp eid => (prepare s eid).2
  | TxOp.setStateOp i st => setTxState s i st

def runOps (s : TXServiceState) (ops : List TxOp) : TXServiceState :=
  ops.foldl applyOp s

/-! ## Chain scanner (claim C3)

Modelled from the spec: §4.3.  The scanner implementation
(`sto/ethereum/tokenscan.py`) is not part of the source tree.  The chain
is a map from block number to the ordered list of that block's transfer
events; the ledger maps holder addresses (numbers) to balances.  The
committed checkpoint after a range records the last fully applied block. -/

structure Transfer where
  src : Nat
  dst : Nat
  value : Int

structure ScanState where
  lastScannedBlock : Option Nat
  ledger : Nat → Int

def applyTransfer (ledger : Nat → Int) (t : Transfer) : Nat → Int :=
  fun a =>
    ledger a - (if a = t.src then t.value else 0) + (if a = t.dst then t.value else 0)

def applyBlock (chain : Nat → List Transfer) (ledger : Nat → Int) (b : Nat) : Nat → Int :=
  (chain b).foldl applyTransfer ledger

/-- Modelled from the spec: §4.3 — process blocks `startB..endB` in
ascending order, applying each block's transfer events in log order, and
commit the checkpoint `lastScannedBlock := endB`.  An empty range leaves
the state untouched. -/
def scanRange (chain : Nat → List Transfer) (s : ScanState) (startB endB : Nat) : ScanState :=
  if endB < startB then s
  else ⟨some endB, (List.range' startB (endB + 1 - startB)).foldl (applyBlock chain) s.ledger⟩

/-- Modelled from the spec: §4.3 — the block a checkpoint-less or
checkpointed scan resumes from when `start_block` is omitted:
`last_scanned_block + 1`, or the deployment block (block 0 when
unknown) without a status row. -/
def resumeStart (s : ScanState) (deployBlock : Nat) : Nat :=
  match s.lastScannedBlock with
  | some b => b + 1
  | none => deployBlock

/-- Modelled from the spec: §4.3 — `scan` with `start_block` omitted. -/
def scanResume (chain : Nat → List Transfer) (s : ScanState) (deployBlock endB : Nat) :
    ScanState :=
  scanRange chain s (resumeStart s deployBlock) endB

/-! ## Cap table builder (claim C7)

The option choices come from `sto/cli/main.py` lines 533–537; the builder
itself (`sto/generic/captable.py`) is not part of the source tree and is
modelled from the spec, §4.4. -/

/-- `--order-by` choices (main.py line 533). -/
def capTableOrderByChoices : List String := ["balance", "name", "updated", "address"]

/-- `--order-direction` choices (main.py line 534). -/
def capTableOrderDirectionChoices : List String := ["asc", "desc"]

/-- `click.Choice` validation: accept exactly the listed values. -/
def clickChoice (choices : List String) (v : String) : Option String :=
  if choices.contains v then some v else none

structure TokenHolder where
  address : String
  balance : Nat
  updatedAt : Nat
deriving DecidableEq

structure CapTableEntry where
  address : String
  name : String
  balance : Nat
  updatedAt : Nat
deriving DecidableEq

inductive OrderBy where
  | byBalance : OrderBy
  | byName : OrderBy
  | byUpdated : OrderBy
  | byAddress : OrderBy
deriving DecidableEq

inductive OrderDirection where
  | asc : OrderDirection
  | desc : OrderDirection
deriving DecidableEq

def parseOrderBy (s : String) : Option OrderBy :=
  if s == "balance" then some OrderBy.byBalance
  else if s == "name" then some OrderBy.byName
  else if s == "updated" then some OrderBy.byUpdated
  else if s == "address" then some OrderBy.byAddress
  else none

def parseOrderDirection (s : String) : Option OrderDirection :=
  if s == "asc" then some OrderDirection.asc
  else if s == "desc" then some OrderDirection.desc
  else none

/-- Comparison key order for one entry pair, ties broken by address so
the output ordering is deterministic (spec §4.4). -/
def entryKeyLE (ob : OrderBy) (x y : CapTableEntry) : Bool :=
  match ob with
  | OrderBy.byBalance =>
    decide (x.balance < y.balance ∨ (x.balance = y.balance ∧ x.address ≤ y.address))
  | OrderBy.byName => decide (x.name < y.name ∨ (x.name = y.name ∧ x.address ≤ y.address))
  | OrderBy.byUpdated =>
    decide (x.updatedAt < y.updatedAt ∨ (x.updatedAt = y.updatedAt ∧ x.address ≤ y.address))
  | OrderBy.byAddress => decide (x.address ≤ y.address)

def entryLE (ob : OrderBy) (dir : OrderDirection) (a b : CapTableEntry) : Bool :=
  match dir with
  | OrderDirection.asc => entryKeyLE ob a b
  | OrderDirection.desc => entryKeyLE ob b a

def insertSorted (le : CapTableEntry → CapTableEntry → Bool) (x : CapTableEntry) :
    List CapTableEntry → List CapTableEntry
  | [] => [x]
  | y :: ys => if le x y then x :: y :: ys else y :: insertSorted le x ys

def sortEntries (le : CapTableEntry → CapTableEntry → Bool) (l : List CapTableEntry) :
    List CapTableEntry :=
  l.foldr (insertSorted le) []

/-- Modelled from the spec: §4.4 `generate_cap_table` — drop zero
balances unless `include_empty`, enrich each holder with the identity
lookup (falling back to the address), and sort by the selected key and
direction with address tiebreak. -/
def generate_cap_table (holders : List TokenHolder) (identity : String → Option String)
    (order_by : OrderBy) (order_direction : OrderDirection) (include_empty : Bool) :
    List CapTableEntry :=
  let filtered := if include_empty then holders else holders.filter fun h => h.balance != 0
  let entries := filtered.map fun h =>
    ⟨h.address, (identity h.address).getD h.address, h.balance, h.updatedAt⟩
  sortEntries (entryLE order_by order_direction) entries

/-- Fixed-point rendering of an integer base-unit balance at `accuracy`
decimals: the integer part and the fractional part (scaled remainder). -/
def renderBalance (b : Nat) (accuracy : Nat) : Nat × Nat :=
  (b / 10 ^ accuracy, b % 10 ^ accuracy)

/-- Modelled from the spec: §4.4 / `print_cap_table` — truncate to
`max_entries` rows and render each balance at `accuracy` decimals. -/
def print_cap_table (entries : List CapTableEntry) (max_entries : Nat) (accuracy : Nat) :
    List (String × Nat × Nat) :=
  (entries.take max_entries).map fun e => (e.name, renderBalance e.balance accuracy)

/-! ## Helper lemmas -/

theorem findByExternalId_append_none {l1 l2 : List PreparedTx} {eid : String}
    (h : findByExternalId l1 eid = none) :
    findByExternalId (l1 ++ l2) eid = findByExternalId l2 eid := by
  unfold findByExternalId at h ⊢
  rw [List.find?_append, h]
  rfl

theorem hex_address_length (l : List Char) (h : is_hex_address l = true) : l.length = 42 := by
  unfold is_hex_address at h
  rw [Bool.and_eq_true, Bool.and_eq_true] at h
  have htake : (l.take 2).length = 2 := by
    rw [beq_iff_eq.mp h.1.1]
    rfl
  have hdrop : (l.drop 2).length = 40 := beq_iff_eq.mp h.1.2
  have hsplit := List.take_append_drop 2 l
  have := congrArg List.length hsplit
  rw [List.length_append, htake, hdrop] at this
  omega

/-! ## Claim theorems -/

/-- C4: a missing node endpoint or missing signing key is surfaced
immediately as a configuration error: `check_good_node_url` raises
`NoNodeConfigured` iff the url is empty, `check_good_private_key` raises
`NeedPrivateKey` iff the key is empty, and `deploy_contract` with an
empty key fails with the missing-key error before performing any chain
interaction. -/
theorem config_errors_immediate :
    (∀ url : String,
      check_good_node_url url = Except.error (ConfigError.noNodeConfigured noNodeMsg) ↔
        url = "") ∧
    (∀ k : String,
      check_good_private_key k = Except.error (ConfigError.needPrivateKey needKeyMsg) ↔
        k = "") ∧
    (∀ network node_url contract_name : String, is_ethereum_network network = true →
      deploy_contract network "" node_url contract_name =
        ([], Except.error (ConfigError.needPrivateKey needKeyMsg))) := by
  refine ⟨?_, ?_, ?_⟩
  · intro url
    by_cases h : url = "" <;> simp [check_good_node_url, h]
  · intro k
    by_cases h : k = "" <;> simp [check_good_private_key, h]
  · intro network node_url contract_name h
    simp [deploy_contract, h, check_good_private_key]

/-- Witness for C4 at concrete inputs. -/
theorem config_errors_immediate_witness :
    check_good_node_url "" = Except.error (ConfigError.noNodeConfigured noNodeMsg) ∧
    check_good_private_key "" = Except.error (ConfigError.needPrivateKey needKeyMsg) ∧
    deploy_contract "ethereum" "" "http://localhost:8545" "CrowdsaleToken" =
      ([], Except.error (ConfigError.needPrivateKey needKeyMsg)) :=
  ⟨(config_errors_immediate.1 "").mpr rfl,
   (config_errors_immediate.2.1 "").mpr rfl,
   config_errors_immediate.2.2 "ethereum" "http://localhost:8545" "CrowdsaleToken" (by decide)⟩

/-- C5: the `cli` entry point triggers the chain nonce resync exactly
when the database is fresh, `auto_restart_nonce` is enabled and a
private key is configured; with an existing database no automatic
resync happens. -/
theorem auto_restart_nonce_policy :
    ∀ (new_db auto_restart : Bool) (key : String),
      (cli_auto_restart_nonce new_db auto_restart key = true ↔
        (new_db = true ∧ auto_restart = true ∧ ¬key = "")) ∧
      (new_db = false → cli_auto_restart_nonce new_db auto_restart key = false) := by
  intro ndb ar key
  constructor
  · simp [cli_auto_restart_nonce, and_assoc]
  · intro h
    subst h
    simp [cli_auto_restart_nonce]

/-- Witness for C5: resync fires on a fresh database with key set, and
never on an existing database. -/
theorem auto_restart_nonce_policy_witness :
    cli_auto_restart_nonce true true "3fac35a5" = true ∧
    cli_auto_restart_nonce false true "3fac35a5" = false :=
  ⟨(auto_restart_nonce_policy true true "3fac35a5").1.mpr ⟨rfl, rfl, by decide⟩,
   (auto_restart_nonce_policy false true "3fac35a5").2 rfl⟩

/-- C6: `is_ethereum_network` is true exactly on the three-element set
of known network names, false on every other string (such as
"testing"), and the `diagnose` command raises
`UnknownConfiguredNetwork` for every such network. -/
theorem network_dispatch_closed :
    (∀ n : String,
      is_ethereum_network n = true ↔ (n = "ethereum" ∨ n = "kovan" ∨ n = "ropsten")) ∧
    is_ethereum_network "testing" = false ∧
    (∀ n : String, is_ethereum_network n = false →
      diagnose n = Except.error CliError.unknownConfiguredNetwork) := by
  refine ⟨?_, by decide, ?_⟩
  · intro n
    simp [is_ethereum_network]
  · intro n h
    simp [diagnose, h]

/-- Witness for C6 at the network name the test suite uses. -/
theorem network_dispatch_closed_witness :
    is_ethereum_network "testing" = false ∧
    diagnose "testing" = Except.error CliError.unknownConfiguredNetwork :=
  ⟨network_dispatch_closed.2.1,
   network_dispatch_closed.2.2 "testing" network_dispatch_closed.2.1⟩

/-- C8: `getLogs` is insensitive to its `argument_filters` parameter:
with every other argument, contract state and node behaviour fixed, the
constructed event filter parameters and the decoded event sequence are
identical for any two values of the parameter, because line 145
overwrites it with an empty dict before use. -/
theorem getLogs_insensitive_to_argument_filters :
    ∀ (env : LogsEnv) (af1 af2 : Option (List (String × String))) (fromBlock : Option Nat)
      (toBlock : String) (address : Option String) (topics : List String),
      getLogs env af1 fromBlock toBlock address topics =
        getLogs env af2 fromBlock toBlock address topics := by
  intro env af1 af2 fromBlock toBlock address topics
  rfl

/-- C2: `prepare` called twice with the same correlation id is
idempotent — the second call returns the record of the first call and
leaves the store unchanged. -/
theorem prepare_idempotent_on_correlation_id :
    ∀ (s : TXServiceState) (eid : String),
      prepare (prepare s (some eid)).2 (some eid) =
        ((prepare s (some eid)).1, (prepare s (some eid)).2) := by
  intro s eid
  cases hfind : findByExternalId s.txs eid with
  | some t =>
    simp [prepare, hfind]
  | none =>
    have hfind2 : findByExternalId
        (s.txs ++ [⟨s.txs.length, some eid, s.nextNonce, TxState.signed⟩]) eid =
        some ⟨s.txs.length, some eid, s.nextNonce, TxState.signed⟩ := by
      rw [findByExternalId_append_none hfind]
      simp [findByExternalId]
    simp [prepare, hfind, prepareNew, hfind2]

theorem map_nonce_snoc (l : List PreparedTx) (t : PreparedTx) (n0 : Nat)
    (h1 : l.map PreparedTx.nonce = List.range' n0 l.length) (h2 : t.nonce = n0 + l.length) :
    (l ++ [t]).map PreparedTx.nonce = List.range' n0 (l ++ [t]).length := by
  rw [List.map_append, h1, List.length_append]
  simp [h2, List.range'_concat]

theorem queue_step_inv (n0 : Nat) (s : TXServiceState) (op : TxOp)
    (h1 : s.txs.map PreparedTx.nonce = List.range' n0 s.txs.length)
    (h2 : s.nextNonce = n0 + s.txs.length) :
    (applyOp s op).txs.map PreparedTx.nonce = List.range' n0 (applyOp s op).txs.length ∧
      (applyOp s op).nextNonce = n0 + (applyOp s op).txs.length := by
  have hnew : ∀ eid : Option String,
      (prepareNew s eid).2.txs.map PreparedTx.nonce =
        List.range' n0 (prepareNew s eid).2.txs.length ∧
      (prepareNew s eid).2.nextNonce = n0 + (prepareNew s eid).2.txs.length := by
    intro eid
    unfold prepareNew
    constructor
    · exact map_nonce_snoc s.txs _ n0 h1 h2
    · simp
      omega
  cases op with
  | prepareOp eid =>
    cases eid with
    | none => exact hnew none
    | some e =>
      cases hfind : findByExternalId s.txs e with
      | some t =>
        simp only [applyOp, prepare, hfind]
        exact ⟨h1, h2⟩
      | none =>
        simp only [applyOp, prepare, hfind]
        exact hnew (some e)
  | setStateOp i st =>
    have hm : (setTxState s i st).txs.map PreparedTx.nonce = s.txs.map PreparedTx.nonce := by
      unfold setTxState
      simp only [List.map_map]
      apply List.map_congr_left
      intro t ht
      by_cases h : t.txid = i <;> simp [h]
    have hl : (setTxState s i st).txs.length = s.txs.length := by
      unfold setTxState
      simp
    refine ⟨?_, ?_⟩
    · show (setTxState s i st).txs.map PreparedTx.nonce =
        List.range' n0 (setTxState s i st).txs.length
      rw [hm, hl, h1]
    · show (setTxState s i st).nextNonce = n0 + (setTxState s i st).txs.length
      rw [hl]
      exact h2

theorem queue_inv_runOps (n0 : Nat) (ops : List TxOp) (s : TXServiceState)
    (h1 : s.txs.map PreparedTx.nonce = List.range' n0 s.txs.length)
    (h2 : s.nextNonce = n0 + s.txs.length) :
    (runOps s ops).txs.map PreparedTx.nonce = List.range' n0 (runOps s ops).txs.length ∧
      (runOps s ops).nextNonce = n0 + (runOps s ops).txs.length := by
  induction ops generalizing s with
  | nil => exact ⟨h1, h2⟩
  | cons op ops ih =>
    have hstep := queue_step_inv n0 s op h1 h2
    exact ih (applyOp s op) hstep.1 hstep.2

theorem record_preserved_applyOp (s : TXServiceState) (op : TxOp) (t : PreparedTx)
    (h : t ∈ s.txs) :
    ∃ t' ∈ (applyOp s op).txs, t'.txid = t.txid ∧ t'.nonce = t.nonce := by
  cases op with
  | prepareOp eid =>
    refine ⟨t, ?_, rfl, rfl⟩
    cases eid with
    | none =>
      simp only [applyOp, prepare, prepareNew]
      exact List.mem_append_left _ h
    | some e =>
      cases hfind : findByExternalId s.txs e with
      | some u => simpa only [applyOp, prepare, hfind] using h
      | none =>
        simp only [applyOp, prepare, hfind, prepareNew]
        exact List.mem_append_left _ h
  | setStateOp i st =>
    simp only [applyOp, setTxState]
    refine ⟨_, List.mem_map_of_mem _ h, ?_⟩
    by_cases hc : t.txid = i <;> simp [hc]

theorem record_preserved_runOps (s : TXServiceState) (ops : List TxOp) (t : PreparedTx)
    (h : t ∈ s.txs) :
    ∃ t' ∈ (runOps s ops).txs, t'.txid = t.txid ∧ t'.nonce = t.nonce := by
  induction ops generalizing s t with
  | nil => exact ⟨t, h, rfl, rfl⟩
  | cons op ops ih =>
    obtain ⟨t1, ht1, hid, hnonce⟩ := record_preserved_applyOp s op t h
    obtain ⟨t2, ht2, hid2, hnonce2⟩ := ih (applyOp s op) t1 ht1
    exact ⟨t2, ht2, hid2.trans hid, hnonce2.trans hnonce⟩

theorem mem_insertSorted (le : CapTableEntry → CapTableEntry → Bool) (x a : CapTableEntry)
    (l : List CapTableEntry) : a ∈ insertSorted le x l ↔ a = x ∨ a ∈ l := by
  induction l with
  | nil => simp [insertSorted]
  | cons y ys ih =>
    unfold insertSorted
    by_cases h : le x y = true
    · simp only [if_pos h, List.mem_cons]
    · simp only [if_neg h, List.mem_cons, ih]
      tauto

theorem length_insertSorted (le : CapTableEntry → CapTableEntry → Bool) (x : CapTableEntry)
    (l : List CapTableEntry) : (insertSorted le x l).length = l.length + 1 := by
  induction l with
  | nil => rfl
  | cons y ys ih =>
    unfold insertSorted
    by_cases h : le x y = true
    · simp [if_pos h]
    · simp [if_neg h, ih]

theorem mem_sortEntries (le : CapTableEntry → CapTableEntry → Bool) (a : CapTableEntry)
    (l : List CapTableEntry) : a ∈ sortEntries le l ↔ a ∈ l := by
  induction l with
  | nil => simp [sortEntries]
  | cons y ys ih =>
    show a ∈ insertSorted le y (sortEntries le ys) ↔ a ∈ y :: ys
    rw [mem_insertSorted]
    simp [ih]

theorem length_sortEntries (le : CapTableEntry → CapTableEntry → Bool)
    (l : List CapTableEntry) : (sortEntries le l).length = l.length := by
  induction l with
  | nil => rfl
  | cons y ys ih =>
    show (insertSorted le y (sortEntries le ys)).length = ys.length + 1
    rw [length_insertSorted, ih]

/-- C1: over every operation sequence of the queue service on one
managing account, the nonces of the created records, in creation order,
form the contiguous range starting at the account's initial counter —
strictly increasing, gapless, without repeats — and the nonce of a
record, once assigned, is preserved by every further operation,
including marking that record `FAILED`. -/
theorem nonces_strictly_increasing_gapless_immutable :
    ∀ (n0 : Nat) (ops : List TxOp),
      ((runOps ⟨[], n0⟩ ops).txs.map PreparedTx.nonce =
        List.range' n0 (runOps ⟨[], n0⟩ ops).txs.length) ∧
      List.Pairwise (fun a b => a < b) ((runOps ⟨[], n0⟩ ops).txs.map PreparedTx.nonce) ∧
      (∀ (more : List TxOp) (t : PreparedTx), t ∈ (runOps ⟨[], n0⟩ ops).txs →
        ∃ t' ∈ (runOps (runOps ⟨[], n0⟩ ops) more).txs,
          t'.txid = t.txid ∧ t'.nonce = t.nonce) := by
  intro n0 ops
  have hinv := queue_inv_runOps n0 ops ⟨[], n0⟩ rfl rfl
  refine ⟨hinv.1, ?_, ?_⟩
  · rw [hinv.1]
    exact List.pairwise_lt_range' n0 _ 1 Nat.one_pos
  · intro more t ht
    exact record_preserved_runOps _ more t ht

/-- Witness for C1: four queue operations (two anonymous prepares, one
correlated prepare, one failure) starting at counter 5 assign nonces
5, 6, 7, and the failed record keeps nonce 6 after further failures. -/
theorem nonces_strictly_increasing_gapless_immutable_witness :
    ((runOps ⟨[], 5⟩ [TxOp.prepareOp none, TxOp.prepareOp (some "a"),
        TxOp.setStateOp 1 TxState.failed, TxOp.prepareOp none]).txs.map PreparedTx.nonce =
      List.range' 5 (runOps ⟨[], 5⟩ [TxOp.prepareOp none, TxOp.prepareOp (some "a"),
        TxOp.setStateOp 1 TxState.failed, TxOp.prepareOp none]).txs.length) ∧
    (⟨1, some "a", 6, TxState.failed⟩ : PreparedTx) ∈
      (runOps ⟨[], 5⟩ [TxOp.prepareOp none, TxOp.prepareOp (some "a"),
        TxOp.setStateOp 1 TxState.failed, TxOp.prepareOp none]).txs ∧
    ∃ t' ∈ (runOps (runOps ⟨[], 5⟩ [TxOp.prepareOp none, TxOp.prepareOp (some "a"),
        TxOp.setStateOp 1 TxState.failed, TxOp.prepareOp none])
        [TxOp.setStateOp 1 TxState.failed]).txs,
      t'.txid = 1 ∧ t'.nonce = 6 :=
  ⟨(nonces_strictly_increasing_gapless_immutable 5 [TxOp.prepareOp none,
      TxOp.prepareOp (some "a"), TxOp.setStateOp 1 TxState.failed, TxOp.prepareOp none]).1,
   by decide,
   (nonces_strictly_increasing_gapless_immutable 5 [TxOp.prepareOp none,
      TxOp.prepareOp (some "a"), TxOp.setStateOp 1 TxState.failed,
      TxOp.prepareOp none]).2.2 [TxOp.setStateOp 1 TxState.failed]
      ⟨1, some "a", 6, TxState.failed⟩ (by decide)⟩

/-- C3: a scan with `start_block` omitted resumes at
`last_scanned_block + 1` (at the deployment block, or block 0, without a
status row), and a scan interrupted after a committed window and resumed
this way yields the same final state — holder ledger and checkpoint — as
one uninterrupted scan over the same range. -/
theorem scan_resume_equivalence :
    (∀ (s : ScanState) (d b : Nat),
      (s.lastScannedBlock = some b → resumeStart s d = b + 1) ∧
      (s.lastScannedBlock = none → resumeStart s d = d)) ∧
    (∀ (chain : Nat → List Transfer) (s : ScanState) (d a m e : Nat), a ≤ m → m ≤ e →
      scanResume chain (scanRange chain s a m) d e = scanRange chain s a e) := by
  constructor
  · intro s d b
    constructor
    · intro h
      simp [resumeStart, h]
    · intro h
      simp [resumeStart, h]
  · intro chain s d a m e ham hme
    have h1 : scanRange chain s a m =
        ⟨some m, (List.range' a (m + 1 - a)).foldl (applyBlock chain) s.ledger⟩ := by
      unfold scanRange
      rw [if_neg (by omega)]
    unfold scanResume
    rw [h1]
    rcases Nat.lt_or_ge m e with hlt | hge
    · show scanRange chain _ (m + 1) e = scanRange chain s a e
      unfold scanRange
      rw [if_neg (by omega), if_neg (by omega)]
      have hr : List.range' a (m + 1 - a) ++ List.range' (m + 1) (e + 1 - (m + 1)) =
          List.range' a (e + 1 - a) := by
        have hra := List.range'_append a (m + 1 - a) (e + 1 - (m + 1)) 1
        rw [show a + 1 * (m + 1 - a) = m + 1 by omega] at hra
        rw [show e + 1 - (m + 1) + (m + 1 - a) = e + 1 - a by omega] at hra
        exact hra
      simp only [ScanState.mk.injEq, true_and]
      rw [← List.foldl_append, hr]
    · have heq : m = e := by omega
      subst heq
      show scanRange chain _ (m + 1) m = scanRange chain s a m
      rw [h1]
      unfold scanRange
      rw [if_pos (by omega)]

/-- Witness for C3: a three-block committed prefix (blocks 0–2) of a
five-block scan, resumed with no start block, matches the uninterrupted
scan of blocks 0–5; and resume points evaluate as specified. -/
theorem scan_resume_equivalence_witness :
    (0 : Nat) ≤ 2 ∧ (2 : Nat) ≤ 5 ∧
    scanResume (fun b => [⟨0, 1, (b : Int)⟩])
        (scanRange (fun b => [⟨0, 1, (b : Int)⟩]) ⟨none, fun _ => 0⟩ 0 2) 9 5 =
      scanRange (fun b => [⟨0, 1, (b : Int)⟩]) ⟨none, fun _ => 0⟩ 0 5 ∧
    resumeStart ⟨some 7, fun _ => 0⟩ 4 = 8 ∧
    resumeStart ⟨none, fun _ => 0⟩ 4 = 4 :=
  ⟨by decide, by decide,
   scan_resume_equivalence.2 (fun b => [⟨0, 1, (b : Int)⟩]) ⟨none, fun _ => 0⟩ 9 0 2 5
     (by decide) (by decide),
   (scan_resume_equivalence.1 ⟨some 7, fun _ => 0⟩ 4 7).1 rfl,
   (scan_resume_equivalence.1 ⟨none, fun _ => 0⟩ 4 7).2 rfl⟩

/-- C7: the cap-table operation is a pure function over the
holder-balance ledger: the order-by choice accepts exactly
balance/name/updated/address and the direction exactly asc/desc; zero
balances are dropped unless include-empty is set (and nothing is dropped
when it is set); the printed table has at most max-entries rows; and the
rendered balance is the exact base-10 fixed-point decomposition of the
integer base-unit balance at the configured number of decimals. -/
theorem cap_table_pure_function :
    (∀ v : String, (clickChoice capTableOrderByChoices v).isSome = true ↔
      (v = "balance" ∨ v = "name" ∨ v = "updated" ∨ v = "address")) ∧
    (∀ v : String, (clickChoice capTableOrderDirectionChoices v).isSome = true ↔
      (v = "asc" ∨ v = "desc")) ∧
    (∀ (holders : List TokenHolder) (identity : String → Option String)
      (ob : OrderBy) (dir : OrderDirection),
      (∀ e ∈ generate_cap_table holders identity ob dir false, e.balance ≠ 0) ∧
      (generate_cap_table holders identity ob dir true).length = holders.length) ∧
    (∀ (entries : List CapTableEntry) (m acc : Nat),
      (print_cap_table entries m acc).length ≤ m) ∧
    (∀ b acc : Nat,
      (renderBalance b acc).1 * 10 ^ acc + (renderBalance b acc).2 = b ∧
      (renderBalance b acc).2 < 10 ^ acc) := by
  refine ⟨?_, ?_, ?_, ?_, ?_⟩
  · intro v
    simp [clickChoice, capTableOrderByChoices]
  · intro v
    simp [clickChoice, capTableOrderDirectionChoices]
  · intro holders identity ob dir
    constructor
    · intro e he
      unfold generate_cap_table at he
      rw [mem_sortEntries] at he
      simp only [Bool.false_eq_true, if_false, List.mem_map, List.mem_filter] at he
      obtain ⟨h, ⟨hmem, hbal⟩, rfl⟩ := he
      simpa using hbal
    · unfold generate_cap_table
      rw [length_sortEntries, List.length_map]
      simp
  · intro entries m acc
    unfold print_cap_table
    rw [List.length_map]
    exact List.length_take_le m entries
  · intro b acc
    constructor
    · show b / 10 ^ acc * 10 ^ acc + b % 10 ^ acc = b
      rw [Nat.mul_comm]
      exact Nat.div_add_mod b (10 ^ acc)
    · exact Nat.mod_lt _ (Nat.pos_pow_of_pos _ (by norm_num))

/-- Witness for C7 at concrete inputs: choices, a zero-balance holder
dropped, include-empty keeping both rows, truncation and rendering. -/
theorem cap_table_pure_function_witness :
    (clickChoice capTableOrderByChoices "updated").isSome = true ∧
    (clickChoice capTableOrderDirectionChoices "asc").isSome = true ∧
    (⟨"0xa", "0xa", 3, 2⟩ : CapTableEntry) ∈
      generate_cap_table [⟨"0xb", 0, 1⟩, ⟨"0xa", 3, 2⟩] (fun _ => none)
        OrderBy.byBalance OrderDirection.desc false ∧
    (⟨"0xa", "0xa", 3, 2⟩ : CapTableEntry).balance ≠ 0 ∧
    (generate_cap_table [⟨"0xb", 0, 1⟩, ⟨"0xa", 3, 2⟩] (fun _ => none)
        OrderBy.byBalance OrderDirection.desc true).length = 2 ∧
    (print_cap_table [⟨"0xa", "0xa", 3, 2⟩] 5000 2).length ≤ 5000 ∧
    (renderBalance 12345 2).1 * 10 ^ 2 + (renderBalance 12345 2).2 = 12345 :=
  ⟨(cap_table_pure_function.1 "updated").mpr (Or.inr (Or.inr (Or.inl rfl))),
   (cap_table_pure_function.2.1 "asc").mpr (Or.inl rfl),
   by decide,
   (cap_table_pure_function.2.2.1 [⟨"0xb", 0, 1⟩, ⟨"0xa", 3, 2⟩] (fun _ => none)
     OrderBy.byBalance OrderDirection.desc).1 ⟨"0xa", "0xa", 3, 2⟩ (by decide),
   (cap_table_pure_function.2.2.1 [⟨"0xb", 0, 1⟩, ⟨"0xa", 3, 2⟩] (fun _ => none)
     OrderBy.byBalance OrderDirection.desc).2,
   cap_table_pure_function.2.2.2.1 [⟨"0xa", "0xa", 3, 2⟩] 5000 2,
   (cap_table_pure_function.2.2.2.2 12345 2).1⟩

set_option maxRecDepth 1000000 in
set_option maxHeartbeats 4000000 in
/-- C9: `mk_contract_address` returns the EIP-55 checksummed address
formed from the last 20 bytes of keccak256 of the RLP encoding of
`[sender bytes, nonce]`; in particular for the sender
`0x6ac7ea33f8831ea9dcc53393aaa88b25a785dbf0` and nonce 1 it returns the
checksummed form of `0x343c43a37d37dff08ae8c4a11544c718abb4fcf8`, so the
module-level assertion of `utils.py` line 72 holds. -/
theorem mk_contract_address_spec :
    (∀ (sender : String) (nonce : Nat),
      mk_contract_address sender nonce =
        to_checksum_address ((keccak256 (rlpEncodeListPayload
          (rlpEncodeBytes (hexToBytesD (strip0x sender.toList)) ++
            rlpEncodeNat nonce))).drop 12)) ∧
    mk_contract_address (checksum_of_hex "0x6ac7ea33f8831ea9dcc53393aaa88b25a785dbf0") 1 =
      checksum_of_hex "0x343c43a37d37dff08ae8c4a11544c718abb4fcf8" :=
  ⟨fun sender nonce => rfl, by decide⟩

/-- C10: `validate_ethereum_address` rejects every input shorter than 42
characters and every input that is not a hex address; it rejects every
input containing an uppercase character unless it is a valid EIP-55
checksum address; and it accepts every all-lowercase valid hex
address. -/
theorem validate_ethereum_address_spec :
    (∀ a : String, a.length < 42 →
      validate_ethereum_address a = Except.error ("Not an Ethereum address: " ++ a)) ∧
    (∀ a : String, is_hex_address a.toList = false →
      validate_ethereum_address a = Except.error ("Not an Ethereum address: " ++ a)) ∧
    (∀ a : String, a.toList.any Char.isUpper = true → is_checksum_address a.toList = false →
      ∃ msg : String, validate_ethereum_address a = Except.error msg) ∧
    (∀ a : String, is_hex_address a.toList = true →
      a.toList.all (fun c => !c.isUpper) = true →
      validate_ethereum_address a = Except.ok ()) := by
  refine ⟨?_, ?_, ?_, ?_⟩
  · intro a h
    simp only [validate_ethereum_address]
    rw [if_pos h]
  · intro a h
    simp only [validate_ethereum_address]
    by_cases hlen : a.length < 42
    · rw [if_pos hlen]
    · rw [if_neg hlen, if_pos (by rw [h]; rfl)]
  · intro a h1 h2
    by_cases hlen : a.length < 42
    · refine ⟨"Not an Ethereum address: " ++ a, ?_⟩
      simp only [validate_ethereum_address]
      rw [if_pos hlen]
    · by_cases hhex : is_hex_address a.toList = true
      · refine ⟨"Not a checksummed Ethereum address: " ++ a, ?_⟩
        simp only [validate_ethereum_address]
        rw [if_neg hlen, if_neg (by rw [hhex]; decide),
          if_pos (by rw [h1, h2]; rfl)]
      · have hf : is_hex_address a.toList = false := by
          cases hb : is_hex_address a.toList
          · rfl
          · exact absurd hb hhex
        refine ⟨"Not an Ethereum address: " ++ a, ?_⟩
        simp only [validate_ethereum_address]
        rw [if_neg hlen, if_pos (by rw [hf]; rfl)]
  · intro a hhex hlow
    simp only [validate_ethereum_address]
    have h42 : a.toList.length = 42 := hex_address_length _ hhex
    have hlen : ¬a.length < 42 := by
      have he : a.length = a.toList.length := rfl
      omega
    have hany : a.toList.any Char.isUpper = false := by
      cases hb : a.toList.any Char.isUpper
      · rfl
      · obtain ⟨c, hc1, hc2⟩ := List.any_eq_true.mp hb
        have h3 := List.all_eq_true.mp hlow c hc1
        rw [hc2] at h3
        simp at h3
    rw [if_neg hlen, if_neg (by rw [hhex]; decide),
      if_neg (by rw [hany]; simp)]

set_option maxRecDepth 1000000 in
set_option maxHeartbeats 4000000 in
/-- Witness for C10: a short input, a non-hex 42-character input, an
uppercase non-checksummed input and an all-lowercase valid address. -/
theorem validate_ethereum_address_spec_witness :
    validate_ethereum_address "0xdead" =
      Except.error ("Not an Ethereum address: " ++ "0xdead") ∧
    validate_ethereum_address "zzzzzzzzzzzzzzzzzzzzzzzzzzzzzzzzzzzzzzzzzz" =
      Except.error ("Not an Ethereum address: " ++
        "zzzzzzzzzzzzzzzzzzzzzzzzzzzzzzzzzzzzzzzzzz") ∧
    (∃ msg : String, validate_ethereum_address "0xAAAAAAAAAAAAAAAAAAAAAAAAAAAAAAAAAAAAAAAA" =
      Except.error msg) ∧
    validate_ethereum_address "0x6ac7ea33f8831ea9dcc53393aaa88b25a785dbf0" = Except.ok () :=
  ⟨validate_ethereum_address_spec.1 "0xdead" (by decide),
   validate_ethereum_address_spec.2.1 "zzzzzzzzzzzzzzzzzzzzzzzzzzzzzzzzzzzzzzzzzz" (by decide),
   validate_ethereum_address_spec.2.2.1 "0xAAAAAAAAAAAAAAAAAAAAAAAAAAAAAAAAAAAAAAAA"
     (by decide) (by decide),
   validate_ethereum_address_spec.2.2.2 "0x6ac7ea33f8831ea9dcc53393aaa88b25a785dbf0"
     (by decide) (by decide)⟩

end STO
